import Mathlib

/-!
Shallow embedding of the history-selection and replay-aggregation pipeline of
the temporal-replay-action repository.

Source of truth:
- `src/temporal/history-fetcher.ts` (embedded in `src/src/build/builder.ts`):
  `fetchHistories`, `fetchFromFiles`, `fetchByIds`, `fetchByTaskQueue`,
  `fetchByQuery`.
- `src/temporal/replay-runner.ts` (embedded in `src/README.md`):
  `runReplayTests`, `extractWorkflowId`.
- `src/config/inputs.ts`: the selection-method validation fragment of
  `parseInputs`.
- `src/config/types.ts`: `ReplayResult`, `ReplayResults`.
- `src/index.ts`: the fetch-then-replay pipeline ordering.
- `src/reporting/summary.ts` is absent from the snapshot (only its unit tests
  are present); its model below is written from the specification and marked
  as such.

Effectful collaborators (filesystem, Temporal client, replay engine) are
modelled as explicit function-valued environments; thrown JS exceptions are
modelled with `Except` / `Option`; JS values read from JSON files are
modelled by the inductive `JsVal`.
-/

namespace TemporalReplay

/-- A JSON-style JavaScript value, as produced by `JSON.parse` and consumed
read-only by the replay runner. Field order in objects is kept. -/
inductive JsVal where
  | null : JsVal
  | bool : Bool → JsVal
  | num : Int → JsVal
  | str : String → JsVal
  | arr : List JsVal → JsVal
  | obj : List (String × JsVal) → JsVal

/-- JavaScript truthiness of a `JsVal` (empty string, zero, `null` and
`false` are falsy; every object and array is truthy). -/
def JsVal.truthy : JsVal → Bool
  | .null => false
  | .bool b => b
  | .num n => n != 0
  | .str s => s != ""
  | .arr _ => true
  | .obj _ => true

/-- First binding of a key in a JS object's field list. -/
def lookupField : List (String × JsVal) → String → Option JsVal
  | [], _ => none
  | (k, v) :: rest, key => if k = key then some v else lookupField rest key

/-- Property access `v[key]` combined with the `key in v` test: `some` when
`v` is an object carrying the key. On non-objects the source's `in` operator
throws, which the surrounding try/catch of `extractWorkflowId` turns into the
same fall-through to the `"unknown"` sentinel, so `none` is observationally
faithful there. -/
def JsVal.getField : JsVal → String → Option JsVal
  | .obj fields, key => lookupField fields key
  | _, _ => none

mutual

/-- JavaScript `String(v)` coercion for the values of `JsVal`, used by the
replay runner when a non-`Error` value is thrown. -/
def jsToString : JsVal → String
  | .null => "null"
  | .bool b => if b then "true" else "false"
  | .num n => toString n
  | .str s => s
  | .arr xs => String.intercalate "," (jsToStringItems xs)
  | .obj _ => "[object Object]"

/-- Elementwise stringification inside `Array.prototype.toString`, where a
`null` element renders as the empty string. -/
def jsToStringItems : List JsVal → List String
  | [] => []
  | .null :: rest => "" :: jsToStringItems rest
  | v :: rest => jsToString v :: jsToStringItems rest

end

/-- `extractWorkflowId` from `src/temporal/replay-runner.ts`: best-effort
identifier extraction. Tries a top-level string-typed `workflowId`; failing
that, the `workflowId` of `events[0].workflowExecutionStartedEventAttributes`
(truthiness-checked, no string type check in the source, so a truthy
non-string value is returned and observably stringified downstream); failing
everything, the sentinel `"unknown"`. The source wraps the chain in
try/catch, so no structural mismatch ever escapes; the embedding is a total
function. -/
def extractWorkflowId (history : JsVal) : String :=
  match history.getField "workflowId" with
  | some (.str s) => s
  | _ =>
    match history.getField "events" with
    | some (.arr (firstEvent :: _)) =>
      if firstEvent.truthy then
        match firstEvent.getField "workflowExecutionStartedEventAttributes" with
        | some attrs =>
          if attrs.truthy then
            match attrs.getField "workflowId" with
            | some v => if v.truthy then jsToString v else "unknown"
            | none => "unknown"
          else "unknown"
        | none => "unknown"
      else "unknown"
    | _ => "unknown"

/-- A value thrown by the replay engine: either a genuine `Error` instance
(with `name`, `message` and optional `stack`) or an arbitrary non-`Error`
throwable. -/
inductive Thrown where
  | errObj (name message : String) (stack : Option String)
  | value (v : JsVal)

/-- The `errorMessage` computed in the catch block of `runReplayTests`:
`error instanceof Error ? error.message : String(error)`. -/
def Thrown.messageOf : Thrown → String
  | .errObj _ m _ => m
  | .value v => jsToString v

/-- The `errorStack` computed in the catch block:
`error instanceof Error ? error.stack : undefined`. -/
def Thrown.stackOf : Thrown → Option String
  | .errObj _ _ s => s
  | .value _ => none

/-- The `isDeterminismViolation` test of the catch block:
`error instanceof Error && error.name === 'DeterminismViolationError'`. -/
def Thrown.isDeterminismViolation : Thrown → Bool
  | .errObj n _ _ => n == "DeterminismViolationError"
  | .value _ => false

/-- The replay engine `Worker.runReplayHistory({workflowsPath, replayName},
history)`: `none` models a normal return, `some t` models a throw of `t`.
Arguments are the workflows path, the replay name and the history. -/
def Engine : Type := String → String → JsVal → Option Thrown

/-- `ReplayResult.error` field from `src/config/types.ts`. -/
inductive ErrType where
  | DeterminismViolation : ErrType
  | ReplayError : ErrType
deriving DecidableEq

/-- Error detail of a `ReplayResult` (`type`, `message`, optional `stack`). -/
structure ErrorDetail where
  type : ErrType
  message : String
  stack : Option String
deriving DecidableEq

/-- `ReplayResult` from `src/config/types.ts`. -/
structure ReplayResult where
  workflowId : String
  success : Bool
  error : Option ErrorDetail
deriving DecidableEq

/-- `ReplayResults` from `src/config/types.ts`. -/
structure ReplayResults where
  total : Nat
  successful : Nat
  failed : Nat
  determinismViolations : Nat
  results : List ReplayResult

/-- Body of the per-history loop of `runReplayTests`: extract the id, invoke
the engine, and on a throw classify it; all failure is captured into the
returned `ReplayResult`, nothing propagates. -/
def replayOne (engine : Engine) (workflowsPath : String) (history : JsVal) : ReplayResult :=
  let workflowId := extractWorkflowId history
  match engine workflowsPath workflowId history with
  | none => { workflowId := workflowId, success := true, error := none }
  | some err =>
    let isDV := err.isDeterminismViolation
    { workflowId := workflowId
      success := false
      error := some
        { type := if isDV then .DeterminismViolation else .ReplayError
          message := err.messageOf
          stack := err.stackOf } }

/-- Whether a result records a determinism violation; the loop increments its
`determinismViolations` counter exactly on these results. -/
def isDVResult (r : ReplayResult) : Bool :=
  match r.error with
  | some e => e.type == ErrType.DeterminismViolation
  | none => false

/-- The replay loop of `runReplayTests`: results in input order together with
the `determinismViolations` counter incremented inside the catch branch. -/
def replayLoop (engine : Engine) (workflowsPath : String) :
    List JsVal → List ReplayResult × Nat
  | [] => ([], 0)
  | h :: rest =>
    let r := replayOne engine workflowsPath h
    let (rs, dv) := replayLoop engine workflowsPath rest
    (r :: rs, (if isDVResult r then 1 else 0) + dv)

/-- `runReplayTests` from `src/temporal/replay-runner.ts`: run the loop, then
compute `successful` and `failed` by scanning the result list, and return the
aggregate. -/
def runReplayTests (engine : Engine) (workflowsPath : String)
    (histories : List JsVal) : ReplayResults :=
  let results := (replayLoop engine workflowsPath histories).1
  let determinismViolations := (replayLoop engine workflowsPath histories).2
  let successful := (results.filter (fun r => r.success)).length
  let failed := (results.filter (fun r => !r.success)).length
  { total := results.length
    successful := successful
    failed := failed
    determinismViolations := determinismViolations
    results := results }

/-- Caller-visible warnings (`core.warning` calls) emitted along the
selection pipeline, as structured data. -/
inductive Warning where
  | noFilesFound (pattern : String)
  | truncatedFiles (maxHistories total : Nat)
  | fileLoadFailed (file message : String)
  | truncatedIds (maxHistories total : Nat)
  | idFetchFailed (workflowId message : String)
  | maxHistoriesReached (maxHistories : Nat)
  | multipleSelectionMethods
deriving DecidableEq

/-- Filesystem collaborator of `fetchFromFiles`: glob expansion (matched
paths in order), `fs.readFile` (which may throw) and `JSON.parse` (which may
throw). -/
structure Env where
  glob : String → List String
  readFile : String → Except String String
  parseJson : String → Except String JsVal

/-- The body of the try block of the per-file loop of `fetchFromFiles`: read
the file, then parse its content; either step may fail. -/
def loadFile (env : Env) (file : String) : Except String JsVal :=
  match env.readFile file with
  | .error e => .error e
  | .ok content => env.parseJson content

/-- The per-file loop of `fetchFromFiles`: a read/parse failure is caught,
turned into a warning naming the file and the cause, and the loop continues;
successes are accumulated in file order. -/
def filesLoop (env : Env) : List String → List JsVal × List Warning
  | [] => ([], [])
  | file :: rest =>
    let (hs, ws) := filesLoop env rest
    match loadFile env file with
    | .ok history => (history :: hs, ws)
    | .error e => (hs, .fileLoadFailed file e :: ws)

/-- `fetchFromFiles` from `src/temporal/history-fetcher.ts`: expand the glob,
warn and return empty on zero matches, truncate the match list to
`maxHistories` (warning when truncation occurs), then load each remaining
file with per-file failure recovery. -/
def fetchFromFiles (env : Env) (pattern : String) (maxHistories : Nat) :
    List JsVal × List Warning :=
  let files := env.glob pattern
  if files.length = 0 then ([], [.noFilesFound pattern])
  else
    let limitedFiles := files.take maxHistories
    let truncWarn : List Warning :=
      if files.length > maxHistories then [.truncatedFiles maxHistories files.length] else []
    let (histories, ws) := filesLoop env limitedFiles
    (histories, truncWarn ++ ws)

/-- Temporal client collaborator: `client.workflow.getHandle(id).fetchHistory()`
as a per-id fallible fetch, and `client.workflow.list({query}).intoHistories()`
as a fallible call yielding a lazy iterator, modelled as the list of its
pulls — an `Except.error` element is a throw raised by that pull. -/
structure Client where
  fetchHistory : String → Except String JsVal
  list : String → Except String (List (Except String JsVal))

/-- The per-id loop of `fetchByIds`: a fetch failure is caught, turned into a
warning naming the workflow id and the cause, and the loop continues;
successes are accumulated in id order. -/
def idsLoop (c : Client) : List String → List JsVal × List Warning
  | [] => ([], [])
  | workflowId :: rest =>
    let (hs, ws) := idsLoop c rest
    match c.fetchHistory workflowId with
    | .ok history => (history :: hs, ws)
    | .error e => (hs, .idFetchFailed workflowId e :: ws)

/-- `fetchByIds` from `src/temporal/history-fetcher.ts`: truncate the id list
to `maxHistories` (warning when truncation occurs), then fetch each remaining
id with per-id failure recovery. -/
def fetchByIds (c : Client) (workflowIds : List String) (maxHistories : Nat) :
    List JsVal × List Warning :=
  let limitedIds := workflowIds.take maxHistories
  let truncWarn : List Warning :=
    if workflowIds.length > maxHistories then
      [.truncatedIds maxHistories workflowIds.length]
    else []
  let (histories, ws) := idsLoop c limitedIds
  (histories, truncWarn ++ ws)

/-- Batch-fatal failures of `fetchHistories`, by thrown message:
`engineRequired` is the thrown
`Temporal client required for server-based history fetching`,
`noSelection` the thrown `No valid workflow selection method provided`, and
`fetchFailed cause` the thrown
`Failed to fetch workflow histories: <cause>` wrapping the engine's
underlying failure message. -/
inductive FetchErr where
  | engineRequired
  | noSelection
  | fetchFailed (cause : String)
deriving DecidableEq

/-- The `for await` loop of `fetchByQuery` over the history iterator: each
step first pulls the next item (a pull may throw, which propagates to the
surrounding catch), then the body breaks with a warning if the cap was
already reached (discarding the pulled item), otherwise accumulates it. -/
def queryLoop (maxHistories : Nat) :
    List (Except String JsVal) → Nat → Except String (List JsVal × List Warning)
  | [], _ => .ok ([], [])
  | item :: rest, count =>
    match item with
    | .error e => .error e
    | .ok history =>
      if count ≥ maxHistories then .ok ([], [.maxHistoriesReached maxHistories])
      else
        match queryLoop maxHistories rest (count + 1) with
        | .error e => .error e
        | .ok (hs, ws) => .ok (history :: hs, ws)

/-- `fetchByQuery` from `src/temporal/history-fetcher.ts`: call the client's
listing capability and consume the lazy iterator up to `maxHistories`; any
throw from the listing call or from iteration is caught and re-raised wrapped
as the fetch-failed error carrying the original cause message — the whole
batch aborts, no partial result. -/
def fetchByQuery (c : Client) (query : String) (maxHistories : Nat) :
    Except FetchErr (List JsVal × List Warning) :=
  match c.list query with
  | .error e => .error (.fetchFailed e)
  | .ok items =>
    match queryLoop maxHistories items 0 with
    | .error e => .error (.fetchFailed e)
    | .ok r => .ok r

/-- The filter expression synthesized by `fetchByTaskQueue`:
`TaskQueue="<name>"`. -/
def taskQueueQuery (taskQueue : String) : String :=
  "TaskQueue=\"" ++ taskQueue ++ "\""

/-- `fetchByTaskQueue` from `src/temporal/history-fetcher.ts`: delegates to
the query path with the synthesized filter. -/
def fetchByTaskQueue (c : Client) (taskQueue : String) (maxHistories : Nat) :
    Except FetchErr (List JsVal × List Warning) :=
  fetchByQuery c (taskQueueQuery taskQueue) maxHistories

/-- The `selection` part of `ActionConfig` from `src/config/types.ts`. -/
structure Selection where
  historyPath : String
  workflowIds : List String
  taskQueue : String
  query : String
  maxHistories : Nat

/-- Number of populated descriptors of a `Selection` (string descriptors are
populated when nonempty — JS truthiness — and the id list when nonempty). -/
def Selection.populatedCount (s : Selection) : Nat :=
  (if s.historyPath ≠ "" then 1 else 0) + (if s.workflowIds ≠ [] then 1 else 0) +
    (if s.taskQueue ≠ "" then 1 else 0) + (if s.query ≠ "" then 1 else 0)

/-- `fetchHistories` from `src/temporal/history-fetcher.ts`: priority 1 the
file pattern (no client needed); otherwise a client is required up front;
then priority 2 explicit ids, 3 task queue, 4 custom query; with nothing
populated, the no-valid-selection-method error. -/
def fetchHistories (env : Env) (cfg : Selection) (client : Option Client) :
    Except FetchErr (List JsVal × List Warning) :=
  if cfg.historyPath ≠ "" then
    .ok (fetchFromFiles env cfg.historyPath cfg.maxHistories)
  else
    match client with
    | none => .error .engineRequired
    | some c =>
      if cfg.workflowIds.length > 0 then
        .ok (fetchByIds c cfg.workflowIds cfg.maxHistories)
      else if cfg.taskQueue ≠ "" then
        fetchByTaskQueue c cfg.taskQueue cfg.maxHistories
      else if cfg.query ≠ "" then
        fetchByQuery c cfg.query cfg.maxHistories
      else
        .error .noSelection

/-- The selection-validation fragment of `parseInputs` from
`src/config/inputs.ts`, over the four raw input strings: filter the populated
(truthy) ones; zero populated is an input error, more than one emits the
multiple-selection-methods warning. -/
def validateSelection (historyPath workflowIds taskQueue query : String) :
    Except String (List Warning) :=
  let selectionMethods := [historyPath, workflowIds, taskQueue, query].filter (fun s => s ≠ "")
  if selectionMethods.length = 0 then
    .error "Must specify at least one workflow selection method"
  else if selectionMethods.length > 1 then
    .ok [.multipleSelectionMethods]
  else
    .ok []

/-- The fetch-then-replay ordering of `run` in `src/index.ts`: histories are
fetched first and any batch-fatal fetch error aborts the run before any
replay is invoked. (`index.ts` short-circuits an empty history list before
calling `runReplayTests`; `runReplayTests` on `[]` returns the same
all-zero aggregate, so the model composes them directly.) -/
def runPipeline (env : Env) (cfg : Selection) (client : Option Client)
    (engine : Engine) (workflowsPath : String) : Except FetchErr ReplayResults :=
  match fetchHistories env cfg client with
  | .error e => .error e
  | .ok (histories, _) => .ok (runReplayTests engine workflowsPath histories)

/-- Modelled from the spec: `src/reporting/summary.ts` is absent from the
snapshot (only `tests/__tests__/unit/reporting/summary.test.ts` exists). The
success-rate cell of the Report Builder: `successful / total * 100` rounded
to one decimal place (half up) and formatted `N.N%`, except the literal `0%`
when `total == 0`. The rounded value in tenths of a percent is computed as
`(successful * 2000 + total) / (2 * total)` in integer arithmetic. -/
def successRateString (successful total : Nat) : String :=
  if total = 0 then "0%"
  else
    let tenths := (successful * 2000 + total) / (2 * total)
    toString (tenths / 10) ++ "." ++ toString (tenths % 10) ++ "%"

/-- Modelled from the spec: the Report Builder's message cell for a failed
outcome — the literal `No error message` when the message is empty, the
message itself up to 100 characters, and the first 100 characters followed by
the `...` marker beyond that. -/
def truncateMessage (message : String) : String :=
  if message = "" then "No error message"
  else if 100 < message.length then String.mk (message.toList.take 100) ++ "..."
  else message

/-- Rendering of an error kind in the failure-detail table. -/
def errTypeString : ErrType → String
  | .DeterminismViolation => "DeterminismViolation"
  | .ReplayError => "ReplayError"

/-- Modelled from the spec: one failure-detail row — identifier, error kind
(or the literal `Unknown` when the outcome carries no error detail), and the
capped message (or the literal `No error message` when there is no error
detail). -/
def failedRow (r : ReplayResult) : String × String × String :=
  (r.workflowId,
   match r.error with
   | some e => errTypeString e.type
   | none => "Unknown",
   match r.error with
   | some e => truncateMessage e.message
   | none => "No error message")

/-- Modelled from the spec: the structured report handed to the publishing
sink — the summary table rows (metric name, value), the failure-detail rows
(present only when there are failures) and the all-clear flag. -/
structure Report where
  summaryRows : List (String × String)
  failedSection : Option (List (String × String × String))
  allClear : Bool

/-- Modelled from the spec: `generateJobSummary` of `src/reporting/summary.ts`,
restricted to the data the report carries — counts, the success-rate cell,
one failure row per failed outcome (section included only when `failed > 0`)
and the all-clear message when `failed == 0`. Pure function of the aggregate. -/
def generateJobSummary (results : ReplayResults) : Report :=
  { summaryRows :=
      [("Total Workflows", toString results.total),
       ("✅ Successful", toString results.successful),
       ("❌ Failed", toString results.failed),
       ("⚠️ Determinism Violations", toString results.determinismViolations),
       ("Success Rate", successRateString results.successful results.total)]
    failedSection :=
      if results.failed > 0 then
        some ((results.results.filter (fun r => !r.success)).map failedRow)
      else none
    allClear := results.failed = 0 }

/-- The value of the `Success Rate` row of a report's summary table, as the
unit tests look it up. -/
def successRateCell (rep : Report) : Option String :=
  (rep.summaryRows.find? (fun row => row.1 == "Success Rate")).map (fun row => row.2)

/-! Concrete environments, clients and configurations used to evaluate the
definitions on closed inputs. -/

/-- A filesystem with no matching files. -/
def emptyEnv : Env :=
  { glob := fun _ => []
    readFile := fun _ => .error "no such file"
    parseJson := fun _ => .error "unexpected token" }

/-- A selection config with no descriptor populated. -/
def emptySelection : Selection :=
  { historyPath := "", workflowIds := [], taskQueue := "", query := "", maxHistories := 100 }

/-- A client whose per-id fetches fail and whose listing yields nothing. -/
def trivialClient : Client :=
  { fetchHistory := fun _ => .error "workflow not found"
    list := fun _ => .ok [] }

/-- A selection config with two descriptors populated (file pattern and
custom query); the file pattern is highest in priority. -/
def multiSelection : Selection :=
  { historyPath := "histories/exported.json"
    workflowIds := []
    taskQueue := ""
    query := "WorkflowType=OrderWorkflow"
    maxHistories := 5 }

/-- A history record as parsed from a well-formed file. -/
def sampleHistory : JsVal :=
  .obj [("workflowId", .str "wf-sample")]

/-- A filesystem with three matching, parseable history files. -/
def okEnv : Env :=
  { glob := fun _ => ["h1.json", "h2.json", "h3.json"]
    readFile := fun _ => .ok "good"
    parseJson := fun _ => .ok sampleHistory }

/-- A filesystem with three matching files of which the second fails to
parse. -/
def fileEnv : Env :=
  { glob := fun _ => ["h1.json", "h2.json", "h3.json"]
    readFile := fun f => if f = "h2.json" then .ok "bad" else .ok "good"
    parseJson := fun s => if s = "good" then .ok sampleHistory else .error "Unexpected token" }

/-- A client whose listing yields three histories without iteration
failures. -/
def listClient : Client :=
  { fetchHistory := fun _ => .error "workflow not found"
    list := fun _ => .ok [.ok sampleHistory, .ok sampleHistory, .ok sampleHistory] }

/-- A client whose listing call itself fails (e.g. malformed filter). -/
def badListClient : Client :=
  { fetchHistory := fun _ => .error "workflow not found"
    list := fun _ => .error "invalid query filter" }

/-- A client whose listing succeeds but whose iterator fails on the second
pull. -/
def iterFailClient : Client :=
  { fetchHistory := fun _ => .error "workflow not found"
    list := fun _ => .ok [.ok sampleHistory, .error "iteration failed"] }

/-- A selection config that only populates the custom query. -/
def querySelection : Selection :=
  { historyPath := "", workflowIds := [], taskQueue := ""
    query := "WorkflowType=Bad", maxHistories := 10 }

/-- An engine whose replay always succeeds. -/
def okEngine : Engine := fun _ _ _ => none

/-- An engine that always throws a determinism-violation error. -/
def dvEngine : Engine :=
  fun _ _ _ => some (.errObj "DeterminismViolationError" "Command mismatch" (some "stack"))

/-- An engine that always throws a non-`Error` value. -/
def throwValueEngine : Engine := fun _ _ _ => some (.value (.num 42))

/-- A history whose identifier sits only in the start-event attributes of the
first event. -/
def eventsHistory : JsVal :=
  .obj [("events", .arr [.obj [("workflowExecutionStartedEventAttributes",
    .obj [("workflowId", .str "wf-nested")])]])]

/-- The all-zero aggregate of an empty run. -/
def zeroResults : ReplayResults :=
  { total := 0, successful := 0, failed := 0, determinismViolations := 0, results := [] }

/-- An aggregate with five failures and no success. -/
def fiveFailedResults : ReplayResults :=
  { total := 5, successful := 0, failed := 5, determinismViolations := 5, results := [] }

/-- A 150-character failure message. -/
def longMessage : String := String.mk (List.replicate 150 'A')

/-- An aggregate with a single failed outcome carrying the 150-character
message. -/
def longFailResults : ReplayResults :=
  { total := 1, successful := 0, failed := 1, determinismViolations := 0
    results := [{ workflowId := "wf-1", success := false
                  error := some { type := .ReplayError, message := longMessage
                                  stack := none } }] }

/-- `fileEnv` with the third matched file unreadable; it agrees with
`fileEnv` on the first two matches. -/
def fileEnv2 : Env :=
  { glob := fileEnv.glob
    readFile := fun f => if f = "h3.json" then .error "disk error" else fileEnv.readFile f
    parseJson := fileEnv.parseJson }

/-! Helper lemmas shared by the claim theorems. -/

theorem length_filter_add_not (l : List α) (p : α → Bool) :
    (l.filter p).length + (l.filter (fun x => !p x)).length = l.length := by
  induction l with
  | nil => rfl
  | cons x xs ih =>
    by_cases hx : p x <;> simp [List.filter_cons, hx, ← ih] <;> omega

theorem length_filter_mono (l : List α) (p q : α → Bool)
    (h : ∀ x ∈ l, p x = true → q x = true) :
    (l.filter p).length ≤ (l.filter q).length := by
  induction l with
  | nil => exact Nat.le_refl _
  | cons x xs ih =>
    have hxs : ∀ x ∈ xs, p x = true → q x = true := fun y hy => h y (List.mem_cons_of_mem x hy)
    by_cases hp : p x
    · have hq : q x = true := h x (List.mem_cons_self x xs) hp
      simp [List.filter_cons, hp, hq, Nat.succ_le_succ (ih hxs)]
    · by_cases hq : q x <;>
        simp [List.filter_cons, hp, hq] <;>
        exact Nat.le_trans (ih hxs) (by omega)

theorem replayLoop_results (engine : Engine) (p : String) (l : List JsVal) :
    (replayLoop engine p l).1 = l.map (replayOne engine p) := by
  induction l with
  | nil => rfl
  | cons h rest ih => simp [replayLoop, ih]

theorem replayLoop_dv (engine : Engine) (p : String) (l : List JsVal) :
    (replayLoop engine p l).2 = ((replayLoop engine p l).1.filter isDVResult).length := by
  induction l with
  | nil => rfl
  | cons h rest ih =>
    by_cases hdv : isDVResult (replayOne engine p h)
    · simp [replayLoop, List.filter_cons, hdv, ih]
      omega
    · simp [replayLoop, List.filter_cons, hdv, ih]

theorem isDVResult_replayOne_success (engine : Engine) (p : String) (h : JsVal)
    (hdv : isDVResult (replayOne engine p h) = true) :
    (replayOne engine p h).success = false := by
  unfold replayOne at hdv ⊢
  cases hE : engine p (extractWorkflowId h) h
  all_goals simp [hE, isDVResult] at hdv ⊢

/-- C1: for every engine behavior, workflows path and history list, the
aggregate returned by `runReplayTests` satisfies `total = length of outcomes
= successful + failed` and `determinismViolations ≤ failed`, and the outcome
list is exactly the per-item replay of the input histories in input order
(the i-th outcome comes from the i-th history). -/
theorem C1_aggregate_invariants (engine : Engine) (workflowsPath : String)
    (histories : List JsVal) :
    (runReplayTests engine workflowsPath histories).results
        = histories.map (replayOne engine workflowsPath) ∧
    (runReplayTests engine workflowsPath histories).total
        = (runReplayTests engine workflowsPath histories).results.length ∧
    (runReplayTests engine workflowsPath histories).total
        = (runReplayTests engine workflowsPath histories).successful
          + (runReplayTests engine workflowsPath histories).failed ∧
    (runReplayTests engine workflowsPath histories).determinismViolations
        ≤ (runReplayTests engine workflowsPath histories).failed := by
  simp only [runReplayTests]
  refine ⟨replayLoop_results engine workflowsPath histories, trivial, ?_, ?_⟩
  · exact (length_filter_add_not (replayLoop engine workflowsPath histories).1
      (fun r => r.success)).symm
  · rw [replayLoop_dv]
    apply length_filter_mono
    intro r hr hdv
    rw [replayLoop_results] at hr
    rcases List.mem_map.mp hr with ⟨h, _, rfl⟩
    simp [isDVResult_replayOne_success engine workflowsPath h hdv]

theorem fetchByQuery_error_is_fetchFailed (c : Client) (q : String) (m : Nat) (e : FetchErr)
    (h : fetchByQuery c q m = .error e) : ∃ cause, e = .fetchFailed cause := by
  unfold fetchByQuery at h
  cases hl : c.list q with
  | error s =>
    simp [hl] at h
    exact ⟨s, h.symm⟩
  | ok items =>
    cases hq : queryLoop m items 0 with
    | error s =>
      simp [hl, hq] at h
      exact ⟨s, h.symm⟩
    | ok r =>
      simp [hl, hq] at h

/-- C2 counterexample: with no descriptor populated and a null client,
`fetchHistories` fails with the engine-required error, not the
no-valid-selection-method error the claim requires for every handle
argument. -/
theorem C2_counterexample :
    fetchHistories emptyEnv emptySelection none = .error .engineRequired ∧
    fetchHistories emptyEnv emptySelection none ≠ .error .noSelection := by
  refine ⟨rfl, ?_⟩
  intro hcontra
  rw [show fetchHistories emptyEnv emptySelection none = .error .engineRequired from rfl]
    at hcontra
  simp at hcontra

/-- C2 amended: with no descriptor populated, selection fails with the
no-valid-selection-method error when a handle is present; and the
engine-required error is raised exactly when the file pattern is absent and
the handle is null — regardless of whether any server-backed descriptor is
populated, because the handle check precedes descriptor dispatch. -/
theorem C2_amended_selection_errors (env : Env) (cfg : Selection) :
    (cfg.historyPath = "" → cfg.workflowIds = [] → cfg.taskQueue = "" → cfg.query = "" →
      ∀ c : Client, fetchHistories env cfg (some c) = .error .noSelection) ∧
    (∀ client : Option Client,
      fetchHistories env cfg client = .error .engineRequired ↔
        (cfg.historyPath = "" ∧ client = none)) := by
  constructor
  · intro h1 h2 h3 h4 c
    simp [fetchHistories, h1, h2, h3, h4]
  · intro client
    constructor
    · intro hER
      by_cases hp : cfg.historyPath = ""
      · cases client with
        | none => exact ⟨hp, rfl⟩
        | some c =>
          exfalso
          by_cases hids : cfg.workflowIds.length > 0
          · simp [fetchHistories, hp, hids] at hER
          · by_cases htq : cfg.taskQueue = ""
            · by_cases hq : cfg.query = ""
              · simp [fetchHistories, hp, hids, htq, hq] at hER
              · simp [fetchHistories, hp, hids, htq, hq] at hER
                rcases fetchByQuery_error_is_fetchFailed _ _ _ _ hER with ⟨cause, hc⟩
                exact FetchErr.noConfusion hc
            · simp [fetchHistories, hp, hids, htq, fetchByTaskQueue] at hER
              rcases fetchByQuery_error_is_fetchFailed _ _ _ _ hER with ⟨cause, hc⟩
              exact FetchErr.noConfusion hc
      · simp [fetchHistories, hp] at hER
    · rintro ⟨hp, rfl⟩
      simp [fetchHistories, hp]

/-- C2 amended witness at a concrete empty configuration. -/
theorem C2_amended_selection_errors_witness :
    fetchHistories emptyEnv emptySelection (some trivialClient) = .error .noSelection ∧
    (fetchHistories emptyEnv emptySelection none = .error .engineRequired ↔
      (emptySelection.historyPath = "" ∧ (none : Option Client) = none)) :=
  ⟨(C2_amended_selection_errors emptyEnv emptySelection).1 rfl rfl rfl rfl trivialClient,
   (C2_amended_selection_errors emptyEnv emptySelection).2 none⟩

/-- C3: when more than one descriptor is populated, `parseInputs` emits the
multiple-selection-methods warning, and `fetchHistories` dispatches on the
descriptor highest in the fixed priority order, ignoring the others: with a
file pattern present the result is exactly the file fetch (independent of the
client and of every other descriptor); with ids present (and no pattern) the
result is exactly the id fetch; with a task queue present (and neither
pattern nor ids) the result is the query fetch over the synthesized
task-queue filter, ignoring the custom query. -/
theorem C3_priority_dispatch (env : Env) (cfg : Selection)
    (_hmulti : 2 ≤ cfg.populatedCount) :
    (∀ hp ids tq q : String,
      1 < (([hp, ids, tq, q]).filter (fun s => s ≠ "")).length →
        validateSelection hp ids tq q = .ok [.multipleSelectionMethods]) ∧
    (cfg.historyPath ≠ "" → ∀ client : Option Client,
      fetchHistories env cfg client
        = .ok (fetchFromFiles env cfg.historyPath cfg.maxHistories)) ∧
    (cfg.historyPath ≠ "" → ∀ (cfg2 : Selection) (client client2 : Option Client),
      cfg2.historyPath = cfg.historyPath → cfg2.maxHistories = cfg.maxHistories →
        fetchHistories env cfg2 client2 = fetchHistories env cfg client) ∧
    (cfg.historyPath = "" → cfg.workflowIds ≠ [] → ∀ c : Client,
      fetchHistories env cfg (some c)
        = .ok (fetchByIds c cfg.workflowIds cfg.maxHistories)) ∧
    (cfg.historyPath = "" → cfg.workflowIds = [] → cfg.taskQueue ≠ "" → ∀ c : Client,
      fetchHistories env cfg (some c)
        = fetchByQuery c (taskQueueQuery cfg.taskQueue) cfg.maxHistories) := by
  refine ⟨?_, ?_, ?_, ?_, ?_⟩
  · intro hp ids tq q hcount
    simp only [validateSelection]
    rw [if_neg (by omega), if_pos hcount]
  · intro hpne client
    simp [fetchHistories, hpne]
  · intro hpne cfg2 client client2 h1 h2
    simp [fetchHistories, hpne, h1, h2]
  · intro hp hids c
    have hlen : cfg.workflowIds.length > 0 := List.length_pos.mpr hids
    simp [fetchHistories, hp, hlen]
  · intro hp hids htq c
    simp [fetchHistories, fetchByTaskQueue, hp, hids, htq]

/-- C3 witness: two descriptors populated, the warning fires, and the file
pattern wins over the custom query. -/
theorem C3_priority_dispatch_witness :
    validateSelection "histories/exported.json" "" "" "WorkflowType=OrderWorkflow"
        = .ok [.multipleSelectionMethods] ∧
    fetchHistories emptyEnv multiSelection none
        = .ok (fetchFromFiles emptyEnv multiSelection.historyPath
            multiSelection.maxHistories) :=
  ⟨(C3_priority_dispatch emptyEnv multiSelection (by decide)).1
      "histories/exported.json" "" "" "WorkflowType=OrderWorkflow" (by decide),
   (C3_priority_dispatch emptyEnv multiSelection (by decide)).2.1 (by decide) none⟩

theorem length_filterMap_of_isSome (l : List α) (f : α → Option β)
    (h : ∀ x ∈ l, (f x).isSome = true) : (l.filterMap f).length = l.length := by
  induction l with
  | nil => rfl
  | cons x xs ih =>
    have hx := h x (List.mem_cons_self x xs)
    cases hfx : f x with
    | none => rw [hfx] at hx; simp at hx
    | some b =>
      simp [List.filterMap_cons, hfx,
        ih (fun y hy => h y (List.mem_cons_of_mem x hy))]

theorem filesLoop_histories (env : Env) (l : List String) :
    (filesLoop env l).1 = l.filterMap (fun f => (loadFile env f).toOption) := by
  induction l with
  | nil => rfl
  | cons f rest ih =>
    cases hf : loadFile env f <;>
      simp [filesLoop, hf, List.filterMap_cons, Except.toOption, ih]

theorem filesLoop_warn_shape (env : Env) (l : List String) :
    ∀ w ∈ (filesLoop env l).2, ∃ f e, w = Warning.fileLoadFailed f e := by
  induction l with
  | nil => intro w hw; simp [filesLoop] at hw
  | cons f rest ih =>
    intro w hw
    cases hf : loadFile env f with
    | ok h => simp [filesLoop, hf] at hw; exact ih w (by simpa using hw)
    | error e =>
      simp [filesLoop, hf] at hw
      rcases hw with hw | hw
      · exact ⟨f, e, hw⟩
      · exact ih w (by simpa using hw)

theorem filesLoop_warn_mem (env : Env) (l : List String) (f : String) (e : String)
    (hf : loadFile env f = .error e) (hmem : f ∈ l) :
    Warning.fileLoadFailed f e ∈ (filesLoop env l).2 := by
  induction l with
  | nil => simp at hmem
  | cons g rest ih =>
    rcases List.mem_cons.mp hmem with rfl | hmem2
    · simp [filesLoop, hf]
    · cases hg : loadFile env g <;> simp [filesLoop, hg, ih hmem2]

theorem idsLoop_histories (c : Client) (l : List String) :
    (idsLoop c l).1 = l.filterMap (fun id => (c.fetchHistory id).toOption) := by
  induction l with
  | nil => rfl
  | cons id rest ih =>
    cases hf : c.fetchHistory id <;>
      simp [idsLoop, hf, List.filterMap_cons, Except.toOption, ih]

theorem idsLoop_warn_shape (c : Client) (l : List String) :
    ∀ w ∈ (idsLoop c l).2, ∃ id e, w = Warning.idFetchFailed id e := by
  induction l with
  | nil => intro w hw; simp [idsLoop] at hw
  | cons id rest ih =>
    intro w hw
    cases hf : c.fetchHistory id with
    | ok h => simp [idsLoop, hf] at hw; exact ih w (by simpa using hw)
    | error e =>
      simp [idsLoop, hf] at hw
      rcases hw with hw | hw
      · exact ⟨id, e, hw⟩
      · exact ih w (by simpa using hw)

theorem idsLoop_warn_mem (c : Client) (l : List String) (id : String) (e : String)
    (hf : c.fetchHistory id = .error e) (hmem : id ∈ l) :
    Warning.idFetchFailed id e ∈ (idsLoop c l).2 := by
  induction l with
  | nil => simp at hmem
  | cons g rest ih =>
    rcases List.mem_cons.mp hmem with rfl | hmem2
    · simp [idsLoop, hf]
    · cases hg : c.fetchHistory g <;> simp [idsLoop, hg, ih hmem2]

theorem queryLoop_cons_ok (maxHistories : Nat) (h : JsVal)
    (rest : List (Except String JsVal)) (count : Nat) :
    queryLoop maxHistories (.ok h :: rest) count
      = if count ≥ maxHistories then
          .ok ([], [Warning.maxHistoriesReached maxHistories])
        else
          match queryLoop maxHistories rest (count + 1) with
          | .error e => .error e
          | .ok (hs, ws) => .ok (h :: hs, ws) := rfl

theorem queryLoop_allOk (maxHistories : Nat) (hs : List JsVal) :
    ∀ count, count ≤ maxHistories →
      queryLoop maxHistories (hs.map Except.ok) count
        = .ok (hs.take (maxHistories - count),
            if maxHistories - count < hs.length then
              [Warning.maxHistoriesReached maxHistories]
            else []) := by
  induction hs with
  | nil => intro count _; simp [queryLoop]
  | cons h rest ih =>
    intro count hcount
    by_cases hstop : count ≥ maxHistories
    · have hc0 : maxHistories - count = 0 := by omega
      simp [queryLoop, hstop, hc0]
    · have hrec := ih (count + 1) (by omega)
      have htake : maxHistories - count = (maxHistories - (count + 1)) + 1 := by omega
      have hcond : (maxHistories - (count + 1) < rest.length) ↔
          (maxHistories - (count + 1) + 1 < (h :: rest).length) := by
        simp only [List.length_cons]; omega
      rw [List.map_cons, queryLoop_cons_ok, if_neg hstop, hrec, htake,
        List.take_succ_cons]
      exact congrArg Except.ok (congrArg _ (if_congr hcond rfl rfl))

theorem fetchFromFiles_histories (env : Env) (pattern : String) (k : Nat) :
    (fetchFromFiles env pattern k).1
      = ((env.glob pattern).take k).filterMap (fun f => (loadFile env f).toOption) := by
  unfold fetchFromFiles
  by_cases h0 : (env.glob pattern).length = 0
  · have hnil : env.glob pattern = [] := List.length_eq_zero.mp h0
    simp [h0, hnil]
  · simp [h0, filesLoop_histories]

theorem fetchByIds_histories (c : Client) (ids : List String) (k : Nat) :
    (fetchByIds c ids k).1
      = (ids.take k).filterMap (fun id => (c.fetchHistory id).toOption) := by
  simp [fetchByIds, idsLoop_histories]

/-- C4: the `maxHistories = k` cap on each source. File pattern: the loaded
histories come from the first `k` matches only, the truncation warning is
emitted exactly when more than `k` files match, and when every one of the
first `k` files loads, exactly `min k n` histories are returned. Explicit
ids: same statements for the id list. Query/task-queue listing: when the
iterator yields `n` histories without failing, exactly the first `k` are
returned, with the cap warning exactly when `n > k`. -/
theorem C4_max_histories_cap (env : Env) (c : Client) (pattern q : String) (k : Nat) :
    ((fetchFromFiles env pattern k).1
        = ((env.glob pattern).take k).filterMap (fun f => (loadFile env f).toOption)) ∧
    ((env.glob pattern).length > k →
        Warning.truncatedFiles k (env.glob pattern).length ∈ (fetchFromFiles env pattern k).2) ∧
    ((env.glob pattern).length ≤ k → ∀ m n,
        Warning.truncatedFiles m n ∉ (fetchFromFiles env pattern k).2) ∧
    ((∀ f ∈ (env.glob pattern).take k, ((loadFile env f).toOption).isSome = true) →
        (fetchFromFiles env pattern k).1.length = min k (env.glob pattern).length) ∧
    (∀ ids : List String,
      ((fetchByIds c ids k).1
          = (ids.take k).filterMap (fun id => (c.fetchHistory id).toOption)) ∧
      (ids.length > k →
          Warning.truncatedIds k ids.length ∈ (fetchByIds c ids k).2) ∧
      (ids.length ≤ k → ∀ m n,
          Warning.truncatedIds m n ∉ (fetchByIds c ids k).2) ∧
      ((∀ id ∈ ids.take k, ((c.fetchHistory id).toOption).isSome = true) →
          (fetchByIds c ids k).1.length = min k ids.length)) ∧
    (∀ hs : List JsVal, c.list q = .ok (hs.map Except.ok) →
        fetchByQuery c q k
          = .ok (hs.take k,
              if k < hs.length then [Warning.maxHistoriesReached k] else [])) := by
  refine ⟨fetchFromFiles_histories env pattern k, ?_, ?_, ?_, ?_, ?_⟩
  · intro hgt
    unfold fetchFromFiles
    have h0 : ¬((env.glob pattern).length = 0) := by omega
    simp [h0, hgt]
  · intro hle m n hmem
    unfold fetchFromFiles at hmem
    by_cases h0 : (env.glob pattern).length = 0
    · simp [h0] at hmem
    · have hnotgt : ¬((env.glob pattern).length > k) := by omega
      simp [h0, hnotgt] at hmem
      rcases filesLoop_warn_shape env _ _ hmem with ⟨f, e, hfe⟩
      exact Warning.noConfusion hfe
  · intro hok
    rw [fetchFromFiles_histories, length_filterMap_of_isSome _ _ hok, List.length_take]
  · intro ids
    refine ⟨fetchByIds_histories c ids k, ?_, ?_, ?_⟩
    · intro hgt
      simp [fetchByIds, hgt]
    · intro hle m n hmem
      have hnotgt : ¬(ids.length > k) := by omega
      simp [fetchByIds, hnotgt] at hmem
      rcases idsLoop_warn_shape c _ _ hmem with ⟨id, e, hfe⟩
      exact Warning.noConfusion hfe
    · intro hok
      rw [fetchByIds_histories, length_filterMap_of_isSome _ _ hok, List.length_take]
  · intro hs hlist
    have hql := queryLoop_allOk k hs 0 (Nat.zero_le k)
    simp only [Nat.sub_zero] at hql
    simp [fetchByQuery, hlist, hql]

/-- C4 witness: three matched files against a cap of two (truncation warning,
two histories), and a three-history listing against a cap of two. -/
theorem C4_max_histories_cap_witness :
    Warning.truncatedFiles 2 3 ∈ (fetchFromFiles okEnv "histories/all.json" 2).2 ∧
    (fetchFromFiles okEnv "histories/all.json" 2).1.length = min 2 3 ∧
    fetchByQuery listClient "WorkflowType=X" 2
      = .ok ([sampleHistory, sampleHistory].take 2,
          if 2 < [sampleHistory, sampleHistory, sampleHistory].length then
            [Warning.maxHistoriesReached 2]
          else []) := by
  refine ⟨?_, ?_, ?_⟩
  · have h := (C4_max_histories_cap okEnv trivialClient "histories/all.json" "q" 2).2.1
    exact h (by decide)
  · have h := (C4_max_histories_cap okEnv trivialClient "histories/all.json" "q" 2).2.2.2.1
    exact h (by intro f _; rfl)
  · have h := (C4_max_histories_cap emptyEnv listClient "p" "WorkflowType=X" 2).2.2.2.2.2
    have hq := h [sampleHistory, sampleHistory, sampleHistory] rfl
    rw [hq]
    rfl

/-- C5: per-item failure recovery on the file and id paths. A failing file
among the first `k` matches yields a warning naming the file and cause while
the other files' histories are still returned, in match order (the
`filterMap` characterization drops exactly the failures); the same holds per
id. Selection itself never fails on these paths: with a file pattern it
always returns a result, and with ids and a client likewise — a bad item
never aborts the batch. -/
theorem C5_per_item_recovery (env : Env) (c : Client) (pattern : String)
    (ids : List String) (k : Nat) :
    ((fetchFromFiles env pattern k).1
        = ((env.glob pattern).take k).filterMap (fun f => (loadFile env f).toOption)) ∧
    (∀ f e, f ∈ (env.glob pattern).take k → loadFile env f = .error e →
        Warning.fileLoadFailed f e ∈ (fetchFromFiles env pattern k).2) ∧
    ((fetchByIds c ids k).1
        = (ids.take k).filterMap (fun id => (c.fetchHistory id).toOption)) ∧
    (∀ id e, id ∈ ids.take k → c.fetchHistory id = .error e →
        Warning.idFetchFailed id e ∈ (fetchByIds c ids k).2) ∧
    (∀ (cfg : Selection) (client : Option Client), cfg.historyPath ≠ "" →
        ∃ res, fetchHistories env cfg client = .ok res) ∧
    (∀ cfg : Selection, cfg.historyPath = "" → cfg.workflowIds ≠ [] →
        ∃ res, fetchHistories env cfg (some c) = .ok res) := by
  refine ⟨fetchFromFiles_histories env pattern k, ?_, fetchByIds_histories c ids k,
    ?_, ?_, ?_⟩
  · intro f e hfmem hferr
    unfold fetchFromFiles
    by_cases h0 : (env.glob pattern).length = 0
    · rw [List.length_eq_zero.mp h0] at hfmem
      simp at hfmem
    · have hmem2 := filesLoop_warn_mem env _ f e hferr hfmem
      simp [h0, hmem2]
  · intro id e hidmem hiderr
    have hmem2 := idsLoop_warn_mem c _ id e hiderr hidmem
    simp [fetchByIds, hmem2]
  · intro cfg client hp
    exact ⟨fetchFromFiles env cfg.historyPath cfg.maxHistories,
      by simp [fetchHistories, hp]⟩
  · intro cfg hp hids
    have hlen : cfg.workflowIds.length > 0 := List.length_pos.mpr hids
    exact ⟨fetchByIds c cfg.workflowIds cfg.maxHistories,
      by simp [fetchHistories, hp, hlen]⟩

/-- C5 witness: with the second of three matched files unparseable, its
warning is emitted and selection still succeeds. -/
theorem C5_per_item_recovery_witness :
    Warning.fileLoadFailed "h2.json" "Unexpected token"
        ∈ (fetchFromFiles fileEnv "histories/all.json" 3).2 ∧
    ∃ res, fetchHistories fileEnv
        { historyPath := "histories/all.json", workflowIds := [], taskQueue := ""
          query := "", maxHistories := 3 } none = .ok res :=
  ⟨(C5_per_item_recovery fileEnv trivialClient "histories/all.json" [] 3).2.1
      "h2.json" "Unexpected token" (by decide) rfl,
   (C5_per_item_recovery fileEnv trivialClient "histories/all.json" [] 3).2.2.2.2.1
      _ none (by decide)⟩

theorem queryLoop_error (maxHistories : Nat) (e : String)
    (rest : List (Except String JsVal)) (pre : List JsVal) :
    ∀ count, count + pre.length ≤ maxHistories →
      queryLoop maxHistories (pre.map Except.ok ++ .error e :: rest) count = .error e := by
  induction pre with
  | nil => intro count _; simp [queryLoop]
  | cons h pre ih =>
    intro count hcount
    simp only [List.length_cons] at hcount
    rw [List.map_cons, List.cons_append, queryLoop_cons_ok, if_neg (by omega),
      ih (count + 1) (by omega)]

/-- C6: on the custom-query and task-queue paths, a failure of the engine's
listing call, or of any iterator pull reached before the cap, is re-raised
wrapped as the fetch-failed error carrying the original cause message. The
whole batch aborts with no partial result (the outcome is an error, not a
history list), and the pipeline aborts before any replay runs. -/
theorem C6_query_fetch_error (env : Env) (c : Client) (engine : Engine)
    (workflowsPath : String) (cfg : Selection) :
    (cfg.historyPath = "" → cfg.workflowIds = [] → cfg.taskQueue = "" → cfg.query ≠ "" →
      ∀ e, c.list cfg.query = .error e →
        fetchHistories env cfg (some c) = .error (.fetchFailed e) ∧
        runPipeline env cfg (some c) engine workflowsPath = .error (.fetchFailed e)) ∧
    (cfg.historyPath = "" → cfg.workflowIds = [] → cfg.taskQueue ≠ "" →
      ∀ e, c.list (taskQueueQuery cfg.taskQueue) = .error e →
        fetchHistories env cfg (some c) = .error (.fetchFailed e) ∧
        runPipeline env cfg (some c) engine workflowsPath = .error (.fetchFailed e)) ∧
    (∀ (maxHistories : Nat) (q : String) (pre : List JsVal) (e : String)
        (rest : List (Except String JsVal)),
      pre.length ≤ maxHistories →
        c.list q = .ok (pre.map Except.ok ++ .error e :: rest) →
        fetchByQuery c q maxHistories = .error (.fetchFailed e)) := by
  refine ⟨?_, ?_, ?_⟩
  · intro hp hids htq hq e hle
    have h1 : fetchHistories env cfg (some c) = .error (.fetchFailed e) := by
      simp [fetchHistories, fetchByQuery, hp, hids, htq, hq, hle]
    exact ⟨h1, by simp [runPipeline, h1]⟩
  · intro hp hids htq e hle
    have h1 : fetchHistories env cfg (some c) = .error (.fetchFailed e) := by
      simp [fetchHistories, fetchByTaskQueue, fetchByQuery, hp, hids, htq, hle]
    exact ⟨h1, by simp [runPipeline, h1]⟩
  · intro maxHistories q pre e rest hlen hlist
    have hloop := queryLoop_error maxHistories e rest pre 0 (by omega)
    simp [fetchByQuery, hlist, hloop]

/-- C6 witness: a failing listing call on the custom-query path aborts the
pipeline, and an iteration failure on the second pull aborts the query
fetch. -/
theorem C6_query_fetch_error_witness :
    fetchHistories emptyEnv querySelection (some badListClient)
        = .error (.fetchFailed "invalid query filter") ∧
    runPipeline emptyEnv querySelection (some badListClient)
        (fun _ _ _ => none) "lib/workflows" = .error (.fetchFailed "invalid query filter") ∧
    fetchByQuery iterFailClient "WorkflowType=X" 10
        = .error (.fetchFailed "iteration failed") := by
  have h1 := (C6_query_fetch_error emptyEnv badListClient (fun _ _ _ => none)
    "lib/workflows" querySelection).1 rfl rfl rfl (by decide) "invalid query filter" rfl
  have h3 := (C6_query_fetch_error emptyEnv iterFailClient (fun _ _ _ => none)
    "lib/workflows" querySelection).2.2 10 "WorkflowType=X" [sampleHistory]
    "iteration failed" [] (by decide) rfl
  exact ⟨h1.1, h1.2, h3⟩

/-- C7: the per-item replay step is a total function (no exception escapes
the embedding). On engine success it yields `success := true, error := none`;
on a throw it yields `success := false` with the error kind
`DeterminismViolation` exactly when the throwable is an `Error` whose name is
the engine's `DeterminismViolationError` signal, and `ReplayError` otherwise,
the message being the stringification of the thrown value when it is not an
`Error`. The outcome's id is the record's top-level string `workflowId`;
failing that, the truthy `workflowId` of the first event's start-event
attributes; failing everything — including non-object records — the sentinel
`unknown`. -/
theorem C7_replay_classification (engine : Engine) (workflowsPath : String) (h : JsVal) :
    (engine workflowsPath (extractWorkflowId h) h = none →
      replayOne engine workflowsPath h
        = { workflowId := extractWorkflowId h, success := true, error := none }) ∧
    (∀ t, engine workflowsPath (extractWorkflowId h) h = some t →
      replayOne engine workflowsPath h
        = { workflowId := extractWorkflowId h
            success := false
            error := some
              { type := if t.isDeterminismViolation then .DeterminismViolation
                        else .ReplayError
                message := t.messageOf
                stack := t.stackOf } } ∧
      (t.isDeterminismViolation = true ↔
        ∃ m s, t = .errObj "DeterminismViolationError" m s)) ∧
    (∀ v : JsVal, Thrown.messageOf (.value v) = jsToString v) ∧
    (∀ fields s, h = .obj fields → lookupField fields "workflowId" = some (.str s) →
      extractWorkflowId h = s) ∧
    (∀ fields evFields attrs s rest, h = .obj fields →
      (∀ s2, lookupField fields "workflowId" ≠ some (.str s2)) →
      lookupField fields "events" = some (.arr (.obj evFields :: rest)) →
      lookupField evFields "workflowExecutionStartedEventAttributes" = some attrs →
      attrs.truthy = true →
      attrs.getField "workflowId" = some (.str s) → s ≠ "" →
      extractWorkflowId h = s) ∧
    (∀ fields, h = .obj fields →
      (∀ s2, lookupField fields "workflowId" ≠ some (.str s2)) →
      lookupField fields "events" = none →
      extractWorkflowId h = "unknown") ∧
    ((∀ fields, h ≠ .obj fields) → extractWorkflowId h = "unknown") := by
  refine ⟨?_, ?_, ?_, ?_, ?_, ?_, ?_⟩
  · intro hE
    simp [replayOne, hE]
  · intro t hE
    refine ⟨by simp [replayOne, hE], ?_⟩
    cases t with
    | errObj n m s =>
      simp only [Thrown.isDeterminismViolation, beq_iff_eq]
      constructor
      · rintro rfl
        exact ⟨m, s, rfl⟩
      · rintro ⟨m2, s2, heq⟩
        injection heq
    | value v =>
      simp [Thrown.isDeterminismViolation]
  · intro v
    rfl
  · rintro fields s rfl hlookup
    simp [extractWorkflowId, JsVal.getField, hlookup]
  · rintro fields evFields attrs s rest rfl htop hevents hattrs htruthy hwf hs
    have hget1 : (JsVal.obj fields).getField "workflowId"
        = lookupField fields "workflowId" := rfl
    have hget2 : (JsVal.obj fields).getField "events"
        = lookupField fields "events" := rfl
    have hget3 : (JsVal.obj evFields).getField "workflowExecutionStartedEventAttributes"
        = lookupField evFields "workflowExecutionStartedEventAttributes" := rfl
    have hobjT : (JsVal.obj evFields).truthy = true := rfl
    have hstrT : (JsVal.str s).truthy = true := by simp [JsVal.truthy, hs]
    have hjs : jsToString (JsVal.str s) = s := rfl
    unfold extractWorkflowId
    rw [hget1]
    cases hl : lookupField fields "workflowId" with
    | none => simp [hl, hget2, hevents, hobjT, hget3, hattrs, htruthy, hwf, hstrT, hjs]
    | some v =>
      cases v
      case str s2 => exact absurd hl (htop s2)
      all_goals simp [hl, hget2, hevents, hobjT, hget3, hattrs, htruthy, hwf, hstrT, hjs]
  · rintro fields rfl htop hevents
    have hget1 : (JsVal.obj fields).getField "workflowId"
        = lookupField fields "workflowId" := rfl
    have hget2 : (JsVal.obj fields).getField "events"
        = lookupField fields "events" := rfl
    unfold extractWorkflowId
    rw [hget1]
    cases hl : lookupField fields "workflowId" with
    | none => simp [hl, hget2, hevents]
    | some v =>
      cases v
      case str s2 => exact absurd hl (htop s2)
      all_goals simp [hl, hget2, hevents]
  · intro hno
    cases h with
    | obj fields => exact absurd rfl (hno fields)
    | null => rfl
    | bool b => rfl
    | num n => rfl
    | str s => rfl
    | arr xs => rfl

/-- C7 witness: success outcome on a plain history, determinism-violation
classification on a throwing engine, stringified non-`Error` message, and the
nested-attributes id extraction. -/
theorem C7_replay_classification_witness :
    replayOne okEngine "lib/workflows" sampleHistory
        = { workflowId := extractWorkflowId sampleHistory, success := true, error := none } ∧
    replayOne dvEngine "lib/workflows" sampleHistory
        = { workflowId := extractWorkflowId sampleHistory
            success := false
            error := some
              { type := if (Thrown.errObj "DeterminismViolationError" "Command mismatch"
                    (some "stack")).isDeterminismViolation then .DeterminismViolation
                  else .ReplayError
                message := (Thrown.errObj "DeterminismViolationError" "Command mismatch"
                  (some "stack")).messageOf
                stack := (Thrown.errObj "DeterminismViolationError" "Command mismatch"
                  (some "stack")).stackOf } } ∧
    Thrown.messageOf (.value (.num 42)) = jsToString (.num 42) ∧
    extractWorkflowId eventsHistory = "wf-nested" := by
  refine ⟨?_, ?_, ?_, ?_⟩
  · exact (C7_replay_classification okEngine "lib/workflows" sampleHistory).1 rfl
  · exact ((C7_replay_classification dvEngine "lib/workflows" sampleHistory).2.1
      (.errObj "DeterminismViolationError" "Command mismatch" (some "stack")) rfl).1
  · exact (C7_replay_classification okEngine "lib/workflows" sampleHistory).2.2.1 (.num 42)
  · refine (C7_replay_classification okEngine "lib/workflows" eventsHistory).2.2.2.2.1
      _ _ _ "wf-nested" _ rfl ?_ rfl rfl rfl rfl (by decide)
    intro s2 hcon
    rw [show lookupField [("events", JsVal.arr [.obj [("workflowExecutionStartedEventAttributes",
      .obj [("workflowId", .str "wf-nested")])]])] "workflowId" = none from rfl] at hcon
    exact Option.noConfusion hcon

theorem rate_tenths_eq_round (s t : Nat) (ht : 0 < t) :
    (s * 2000 + t) / (2 * t) = (round ((s * 1000 : ℚ) / t)).toNat := by
  have ht0 : (t : ℚ) ≠ 0 := Nat.cast_ne_zero.mpr ht.ne'
  have harg : (s * 1000 : ℚ) / t + 1 / 2 = ((s * 2000 + t : ℕ) : ℚ) / ((2 * t : ℕ) : ℚ) := by
    push_cast
    field_simp
    ring
  rw [round_eq, harg, Int.floor_toNat, Nat.floor_div_eq_div]

/-- C8: the success-rate cell of the report equals
`successful / total * 100` rounded (half up) to one decimal place, rendered
as `N.N%`, whenever `total > 0` — in particular exactly `0.0%` for a
zero-success nonempty run — and equals the literal `0%` exactly when
`total = 0`. -/
theorem C8_success_rate (r : ReplayResults) :
    (r.total = 0 → successRateCell (generateJobSummary r) = some "0%") ∧
    (0 < r.total → successRateCell (generateJobSummary r)
        = some (toString ((round ((r.successful * 1000 : ℚ) / r.total)).toNat / 10)
            ++ "." ++ toString ((round ((r.successful * 1000 : ℚ) / r.total)).toNat % 10)
            ++ "%")) ∧
    (0 < r.total → r.successful = 0 →
      successRateCell (generateJobSummary r) = some "0.0%") := by
  have hcell : successRateCell (generateJobSummary r)
      = some (successRateString r.successful r.total) := rfl
  refine ⟨?_, ?_, ?_⟩
  · intro h0
    rw [hcell]
    simp [successRateString, h0]
  · intro hpos
    rw [hcell]
    simp only [successRateString]
    rw [if_neg (by omega), rate_tenths_eq_round r.successful r.total hpos]
  · intro hpos hzero
    have htenths : (0 * 2000 + r.total) / (2 * r.total) = 0 :=
      Nat.div_eq_of_lt (by omega)
    rw [hcell, hzero]
    simp only [successRateString]
    rw [if_neg (by omega), htenths]
    rfl

/-- C8 witness: the empty aggregate renders `0%`, the five-failure aggregate
renders `0.0%`. -/
theorem C8_success_rate_witness :
    successRateCell (generateJobSummary zeroResults) = some "0%" ∧
    successRateCell (generateJobSummary fiveFailedResults) = some "0.0%" :=
  ⟨(C8_success_rate zeroResults).1 rfl,
   (C8_success_rate fiveFailedResults).2.2 (by decide) rfl⟩

theorem string_length_append (s t : String) : (s ++ t).length = s.length + t.length := by
  rcases s with ⟨a⟩
  rcases t with ⟨b⟩
  show (a ++ b).length = a.length + b.length
  exact List.length_append a b

/-- C9: the failure-detail section is present exactly when `failed > 0` and
then holds one row per failed outcome, in order, built by `failedRow`; a row
for an outcome without error detail shows the literal `Unknown` kind and
`No error message`; a row with error detail shows the rendered kind and the
capped message; the empty message renders as `No error message`; a message of
at most 100 characters is kept verbatim; a longer one is cut at 100
characters with the `...` marker appended, giving a cell of exactly 103
characters (so a 150-character message yields a 103-character cell). -/
theorem C9_failure_details (r : ReplayResults) (x : ReplayResult) (m : String) :
    ((generateJobSummary r).failedSection.isSome = true ↔ 0 < r.failed) ∧
    (∀ rows, (generateJobSummary r).failedSection = some rows →
        rows = (r.results.filter (fun y => !y.success)).map failedRow) ∧
    (x.error = none → failedRow x = (x.workflowId, "Unknown", "No error message")) ∧
    (∀ e, x.error = some e →
        failedRow x = (x.workflowId, errTypeString e.type, truncateMessage e.message)) ∧
    (truncateMessage "" = "No error message") ∧
    (m ≠ "" → m.length ≤ 100 → truncateMessage m = m) ∧
    (m ≠ "" → 100 < m.length →
        truncateMessage m = String.mk (m.toList.take 100) ++ "..." ∧
        (truncateMessage m).length = 103) := by
  refine ⟨?_, ?_, ?_, ?_, ?_, ?_, ?_⟩
  · by_cases hf : r.failed > 0 <;> simp [generateJobSummary, hf]
  · intro rows hrows
    by_cases hf : r.failed > 0
    · simp [generateJobSummary, hf] at hrows
      exact hrows.symm
    · simp [generateJobSummary, hf] at hrows
  · intro hnone
    simp [failedRow, hnone]
  · intro e he
    simp [failedRow, he]
  · rfl
  · intro hne hle
    simp [truncateMessage, hne, Nat.not_lt.mpr hle]
  · intro hne hgt
    have heq : truncateMessage m = String.mk (m.toList.take 100) ++ "..." := by
      simp [truncateMessage, hne, hgt]
    refine ⟨heq, ?_⟩
    rw [heq, string_length_append]
    have h1 : (String.mk (m.toList.take 100)).length = (m.toList.take 100).length := rfl
    have h2 : ("..." : String).length = 3 := rfl
    have hlist : m.toList.length = m.length := rfl
    rw [h1, h2, List.length_take, hlist]
    omega

set_option maxRecDepth 4096 in
/-- C9 witness: the one-failure aggregate has a failure section, the
150-character message is capped to a 103-character cell, the empty message
and the missing error detail render their literals. -/
theorem C9_failure_details_witness :
    (generateJobSummary longFailResults).failedSection.isSome = true ∧
    (truncateMessage longMessage).length = 103 ∧
    truncateMessage "" = "No error message" ∧
    failedRow { workflowId := "wf-1", success := false, error := none }
        = ("wf-1", "Unknown", "No error message") := by
  refine ⟨?_, ?_, ?_, ?_⟩
  · exact ((C9_failure_details longFailResults
      { workflowId := "wf-1", success := false, error := none } "").1).mpr (by decide)
  · exact ((C9_failure_details longFailResults
      { workflowId := "wf-1", success := false, error := none } longMessage).2.2.2.2.2.2
        (by decide) (by decide)).2
  · exact (C9_failure_details longFailResults
      { workflowId := "wf-1", success := false, error := none } "").2.2.2.2.1
  · exact (C9_failure_details longFailResults
      { workflowId := "wf-1", success := false, error := none } "").2.2.1 rfl

theorem filesLoop_congr (envA envB : Env) (l : List String)
    (h : ∀ f ∈ l, loadFile envA f = loadFile envB f) :
    filesLoop envA l = filesLoop envB l := by
  induction l with
  | nil => rfl
  | cons f rest ih =>
    have hf := h f (List.mem_cons_self f rest)
    have hrest := ih (fun g hg => h g (List.mem_cons_of_mem f hg))
    simp [filesLoop, hf, hrest]

/-- C10: in file-pattern selection the cap is applied to the matched paths
before any file is read — the result is the per-file load over exactly the
first `k` matches (so a match beyond the first `k` is never read: the result
is unchanged under any modification of the filesystem outside those files),
and a failing file among the first `k` is skipped without replacement, so
fewer than `k` records can be returned even when `k` or more parseable files
match; witnessed concretely by three matches with the second unparseable and
`k = 2`, which yields one record while two parseable files match. -/
theorem C10_truncate_before_read (env env2 : Env) (pattern : String) (k : Nat) :
    ((fetchFromFiles env pattern k).1
        = ((env.glob pattern).take k).filterMap (fun f => (loadFile env f).toOption)) ∧
    (env2.glob pattern = env.glob pattern →
      (∀ f ∈ (env.glob pattern).take k, loadFile env2 f = loadFile env f) →
      fetchFromFiles env2 pattern k = fetchFromFiles env pattern k) ∧
    ((fetchFromFiles fileEnv "histories/all.json" 2).1 = [sampleHistory] ∧
      2 ≤ ((fileEnv.glob "histories/all.json").filter
          (fun f => ((loadFile fileEnv f).toOption).isSome)).length) := by
  refine ⟨fetchFromFiles_histories env pattern k, ?_, rfl, by decide⟩
  intro hglob hagree
  by_cases h0 : (env.glob pattern).length = 0
  · simp [fetchFromFiles, hglob, h0]
  · have hl := filesLoop_congr env2 env ((env.glob pattern).take k) hagree
    simp [fetchFromFiles, hglob, h0, hl]

/-- C10 witness: changing the filesystem on the third match leaves the capped
fetch over the first two matches unchanged. -/
theorem C10_truncate_before_read_witness :
    fetchFromFiles fileEnv2 "histories/all.json" 2
      = fetchFromFiles fileEnv "histories/all.json" 2 :=
  (C10_truncate_before_read fileEnv fileEnv2 "histories/all.json" 2).2.1 rfl
    (by
      intro f hf
      have hcases : f = "h1.json" ∨ f = "h2.json" := by
        simpa [fileEnv] using hf
      rcases hcases with rfl | rfl <;> rfl)

end TemporalReplay
